import Mathlib

/-!
Verification development for the omni-aud financial-audio pipeline.

The definitions below are a shallow embedding of the TypeScript source:
`src/lib/audio-processor.ts` (convertToWAV, reduceNoise, transcribeAudio,
processAudioComplete, cleanupTempFiles) and the Inngest orchestrator
`src/lib/inngest/functions.ts` (processFinancialAudio and its steps).
External effects (ffmpeg runs, HTTP responses, the Groq chat call, the
MongoDB document) are modelled as explicit oracle values threaded through
the functions; the filesystem is an association list from paths to audio
metadata.
-/

set_option maxHeartbeats 1000000

/-- ASCII uppercase/lowercase pairs, used to model JavaScript
`String.prototype.toLowerCase` on the ASCII paths appearing in the code. -/
def upperLowerPairs : List (Char × Char) :=
  [('A', 'a'), ('B', 'b'), ('C', 'c'), ('D', 'd'), ('E', 'e'), ('F', 'f'),
   ('G', 'g'), ('H', 'h'), ('I', 'i'), ('J', 'j'), ('K', 'k'), ('L', 'l'),
   ('M', 'm'), ('N', 'n'), ('O', 'o'), ('P', 'p'), ('Q', 'q'), ('R', 'r'),
   ('S', 's'), ('T', 't'), ('U', 'u'), ('V', 'v'), ('W', 'w'), ('X', 'x'),
   ('Y', 'y'), ('Z', 'z')]

/-- Lowercase a single character (ASCII letters only). -/
def charLower (c : Char) : Char :=
  ((upperLowerPairs.find? (fun e => e.1 = c)).map (fun e => e.2)).getD c

/-- Model of JavaScript `s.toLowerCase()` restricted to ASCII. -/
def strToLower (s : String) : String :=
  String.mk (s.toList.map charLower)

/-- Model of JavaScript `s.endsWith(suf)`. -/
def strEndsWith (s suf : String) : Bool :=
  suf.toList.isSuffixOf s.toList

/-- Does `pat` occur as a contiguous sublist of `l`? -/
def containsSub (pat : List Char) : List Char → Bool
  | [] => pat.isEmpty
  | c :: rest => pat.isPrefixOf (c :: rest) || containsSub pat rest

/-- Model of JavaScript `s.includes(pat)`. -/
def containsStr (s pat : String) : Bool :=
  containsSub pat.toList s.toList

/-- Replace the first occurrence of `pat` in the list (JavaScript
`String.prototype.replace` with a plain-string pattern replaces only the
first occurrence). -/
def replaceFirstAux (pat rep : List Char) : List Char → List Char
  | [] => []
  | c :: rest =>
    if pat.isPrefixOf (c :: rest) then rep ++ (c :: rest).drop pat.length
    else c :: replaceFirstAux pat rep rest

/-- Model of JavaScript `s.replace(pat, rep)` for a plain-string `pat`. -/
def replaceFirstStr (s pat rep : String) : String :=
  String.mk (replaceFirstAux pat.toList rep.toList s.toList)

/-- Model of JavaScript `s.trim()` (ASCII whitespace). -/
def strTrim (s : String) : String :=
  String.mk (((s.toList.dropWhile Char.isWhitespace).reverse.dropWhile
    Char.isWhitespace).reverse)

/-- Model of Node `path.extname`: the suffix of the last path segment from
its last `.` (empty when there is no dot, or when the only dot starts the
segment). -/
def extname (s : String) : String :=
  let seg := (s.toList.reverse.takeWhile (fun c => c ≠ '/')).reverse
  let tail := seg.reverse.takeWhile (fun c => c ≠ '.')
  if tail.length = seg.length then ""
  else if tail.length + 1 = seg.length then ""
  else String.mk ('.' :: tail.reverse)

/-- JSON values, the result type of the modelled `JSON.parse`. -/
inductive Json where
  | null
  | bool (b : Bool)
  | num (raw : String)
  | str (s : String)
  | arr (elems : List Json)
  | obj (fields : List (String × Json))

/-- Skip JSON whitespace. -/
def skipWs : List Char → List Char
  | [] => []
  | c :: rest =>
    if c = ' ' || c = '\n' || c = '\t' || c = '\r' then skipWs rest else c :: rest

/-- Translate the character after a backslash in a JSON string literal. -/
def jsonEscape (c : Char) : Char :=
  if c = 'n' then '\n' else if c = 't' then '\t' else if c = 'r' then '\r' else c

/-- Parse the remainder of a JSON string literal (the opening quote already
consumed), accumulating characters in reverse. -/
def parseStrLitAux : Nat → List Char → List Char → Except String (String × List Char)
  | 0, _, _ => Except.error "JSON string too long"
  | _ + 1, _, [] => Except.error "Unterminated string in JSON"
  | fuel + 1, acc, c :: rest =>
    if c = '"' then Except.ok (String.mk acc.reverse, rest)
    else if c = '\\' then
      match rest with
      | [] => Except.error "Unterminated string in JSON"
      | e :: rest2 => parseStrLitAux fuel (jsonEscape e :: acc) rest2
    else parseStrLitAux fuel (c :: acc) rest

/-- Is `c` a decimal digit? -/
def isDigitCh (c : Char) : Bool := '0' ≤ c && c ≤ '9'

/-- Parse the optional exponent digits of a JSON number. -/
def parseExpDigits (acc pre : List Char) (cs : List Char) :
    Except String (String × List Char) :=
  let (s2, cs1) :=
    match cs with
    | '+' :: r => ((['+'] : List Char), r)
    | '-' :: r => ((['-'] : List Char), r)
    | _ => ([], cs)
  let ds := cs1.takeWhile isDigitCh
  if ds.isEmpty then Except.error "Unexpected token in JSON"
  else Except.ok (String.mk (acc ++ pre ++ s2 ++ ds), cs1.dropWhile isDigitCh)

/-- Parse the optional exponent part of a JSON number. -/
def parseExpPart (acc : List Char) (cs : List Char) :
    Except String (String × List Char) :=
  match cs with
  | 'e' :: r => parseExpDigits acc ['e'] r
  | 'E' :: r => parseExpDigits acc ['E'] r
  | _ => Except.ok (String.mk acc, cs)

/-- Parse a JSON number, returning its raw lexeme. -/
def parseNumber (cs : List Char) : Except String (String × List Char) :=
  let (sgn, cs1) :=
    match cs with
    | '-' :: r => ((['-'] : List Char), r)
    | _ => ([], cs)
  let ip := cs1.takeWhile isDigitCh
  let cs2 := cs1.dropWhile isDigitCh
  if ip.isEmpty then Except.error "Unexpected token in JSON"
  else
    match cs2 with
    | '.' :: r =>
      let fp := r.takeWhile isDigitCh
      if fp.isEmpty then Except.error "Unexpected token in JSON"
      else parseExpPart (sgn ++ ip ++ '.' :: fp) (r.dropWhile isDigitCh)
    | _ => parseExpPart (sgn ++ ip) cs2

/-- Parser mode: a plain value, the elements of an array, or the fields of
an object (with the accumulated prefix). -/
inductive PMode where
  | value
  | elems (acc : List Json)
  | fields (acc : List (String × Json))

/-- Fuel-bounded recursive-descent JSON parser (model of `JSON.parse`). -/
def parseCore : Nat → PMode → List Char → Except String (Json × List Char)
  | 0, _, _ => Except.error "JSON too deeply nested"
  | fuel + 1, PMode.value, cs =>
    match skipWs cs with
    | [] => Except.error "Unexpected end of JSON input"
    | c :: rest =>
      if c = '\x7b' then parseCore fuel (PMode.fields []) rest
      else if c = '[' then parseCore fuel (PMode.elems []) rest
      else if c = '"' then
        match parseStrLitAux (rest.length + 1) [] rest with
        | Except.error e => Except.error e
        | Except.ok (s, r2) => Except.ok (Json.str s, r2)
      else if c = 't' then
        match rest with
        | 'r' :: 'u' :: 'e' :: r2 => Except.ok (Json.bool true, r2)
        | _ => Except.error "Unexpected token in JSON"
      else if c = 'f' then
        match rest with
        | 'a' :: 'l' :: 's' :: 'e' :: r2 => Except.ok (Json.bool false, r2)
        | _ => Except.error "Unexpected token in JSON"
      else if c = 'n' then
        match rest with
        | 'u' :: 'l' :: 'l' :: r2 => Except.ok (Json.null, r2)
        | _ => Except.error "Unexpected token in JSON"
      else if c = '-' || isDigitCh c then
        match parseNumber (c :: rest) with
        | Except.error e => Except.error e
        | Except.ok (rawNum, r2) => Except.ok (Json.num rawNum, r2)
      else Except.error "Unexpected token in JSON"
  | fuel + 1, PMode.elems acc, cs =>
    match skipWs cs with
    | [] => Except.error "Unexpected end of JSON input"
    | c :: rest =>
      if c = ']' && acc.isEmpty then Except.ok (Json.arr [], rest)
      else
        match parseCore fuel PMode.value (c :: rest) with
        | Except.error e => Except.error e
        | Except.ok (v, r2) =>
          match skipWs r2 with
          | ',' :: r3 => parseCore fuel (PMode.elems (v :: acc)) r3
          | ']' :: r3 => Except.ok (Json.arr (v :: acc).reverse, r3)
          | _ => Except.error "Expected comma or bracket in JSON array"
  | fuel + 1, PMode.fields acc, cs =>
    match skipWs cs with
    | [] => Except.error "Unexpected end of JSON input"
    | c :: rest =>
      if c = '\x7d' && acc.isEmpty then Except.ok (Json.obj [], rest)
      else if c = '"' then
        match parseStrLitAux (rest.length + 1) [] rest with
        | Except.error e => Except.error e
        | Except.ok (k, r2) =>
          match skipWs r2 with
          | ':' :: r3 =>
            match parseCore fuel PMode.value r3 with
            | Except.error e => Except.error e
            | Except.ok (v, r4) =>
              match skipWs r4 with
              | ',' :: r5 => parseCore fuel (PMode.fields ((k, v) :: acc)) r5
              | '\x7d' :: r5 => Except.ok (Json.obj ((k, v) :: acc).reverse, r5)
              | _ => Except.error "Expected comma or brace in JSON object"
          | _ => Except.error "Expected colon in JSON object"
      else Except.error "Expected string key in JSON object"

/-- Model of JavaScript `JSON.parse` (throwing = `Except.error`). -/
def parseJson (s : String) : Except String Json :=
  match parseCore (2 * s.toList.length + 2) PMode.value s.toList with
  | Except.error e => Except.error e
  | Except.ok (j, rest) =>
    match skipWs rest with
    | [] => Except.ok j
    | _ => Except.error "Unexpected non-whitespace character after JSON data"

/-- JavaScript member access `j.k`: field lookup on objects, `undefined`
(here `none`) on everything else. -/
def Json.getField : Json → String → Option Json
  | Json.obj fields, k => (fields.find? (fun f => f.1 == k)).map (fun f => f.2)
  | _, _ => none

/-- Metadata of an audio file on disk (the properties the spec's canonical
contract talks about). -/
structure AudioMeta where
  sampleRate : Nat
  channels : Nat
deriving Repr, DecidableEq

/-- The filesystem: an association list from paths to audio metadata. -/
abbrev FS := List (String × AudioMeta)

/-- Metadata of the file at `p`, `none` when absent. -/
def FS.get? : FS → String → Option AudioMeta
  | [], _ => none
  | e :: fs, p => if e.1 = p then some e.2 else FS.get? fs p

/-- Model of Node `fs.existsSync`. -/
def FS.hasFile (fs : FS) (p : String) : Bool := (FS.get? fs p).isSome

/-- Model of Node `fs.unlinkSync` (removing every entry at `p`). -/
def FS.remove : FS → String → FS
  | [], _ => []
  | e :: fs, p => if e.1 = p then FS.remove fs p else e :: FS.remove fs p

/-- Write (create or overwrite) the file at `p`. -/
def FS.set (fs : FS) (p : String) (m : AudioMeta) : FS := (p, m) :: FS.remove fs p

/-- Outcome of one ffmpeg invocation, an oracle for the `.on(error)` versus
`.on(end)` callbacks in the source. -/
inductive FfmpegOutcome where
  | ok
  | err (msg : String)
deriving Repr, DecidableEq

/-- Does the lowercased path end in `.m4a`, `.mp3` or `.mp4`? Model of the
source regex test `/\.(m4a|mp3|mp4)$/i`. -/
def hasConvSuffix (s : String) : Bool :=
  strEndsWith (strToLower s) ".m4a" || strEndsWith (strToLower s) ".mp3"
    || strEndsWith (strToLower s) ".mp4"

/-- Model of `inputPath.replace(/\.(m4a|mp3|mp4)$/i, '.wav')`: swap a
matching 4-character suffix for `.wav`, otherwise return the path
unchanged. -/
def replaceAudioSuffix (s : String) : String :=
  if hasConvSuffix s then
    String.mk ((s.toList.take (s.toList.length - 4)) ++ ('.' :: 'w' :: 'a' :: 'v' :: []))
  else s

/-- Model of `filePath.replace(/\.(m4a|mp3)$/i, '.wav')` (the Groq-fallback
path guess in the orchestrator; note: no `mp4` alternative there). -/
def replaceM4aMp3Suffix (s : String) : String :=
  if strEndsWith (strToLower s) ".m4a" || strEndsWith (strToLower s) ".mp3" then
    String.mk ((s.toList.take (s.toList.length - 4)) ++ ('.' :: 'w' :: 'a' :: 'v' :: []))
  else s

/-- `convertToWAV` from `src/lib/audio-processor.ts`: if `path.extname`
lowercased is `.wav` the input path is returned as-is; otherwise ffmpeg is
run with 16 kHz / mono output options, writing to the path obtained by the
suffix replacement, and the promise rejects with the tool message on
error. -/
def convertToWAV (fs : FS) (oc : FfmpegOutcome) (inputPath : String) :
    Except String (FS × String) :=
  let ext := strToLower (extname inputPath)
  if ext = ".wav" then Except.ok (fs, inputPath)
  else
    let outputPath := replaceAudioSuffix inputPath
    match oc with
    | FfmpegOutcome.ok => Except.ok (FS.set fs outputPath ⟨16000, 1⟩, outputPath)
    | FfmpegOutcome.err m => Except.error ("Audio conversion failed: " ++ m)

/-- `reduceNoise` from `src/lib/audio-processor.ts`: runs the filter chain
writing to `inputPath.replace('.wav', '_clean.wav')`; on ffmpeg error it
resolves with the input path (never rejects). The filters keep the sample
rate and channel count of the input. -/
def reduceNoise (fs : FS) (oc : FfmpegOutcome) (inputPath : String) : FS × String :=
  let outputPath := replaceFirstStr inputPath ".wav" "_clean.wav"
  match oc with
  | FfmpegOutcome.ok =>
    (FS.set fs outputPath ((FS.get? fs inputPath).getD ⟨16000, 1⟩), outputPath)
  | FfmpegOutcome.err _ => (fs, inputPath)

/-- One HTTP response of the Hugging Face inference endpoint: the status,
the body as text, and the `text` field of the JSON body when present. -/
structure HFResponse where
  status : Nat
  bodyText : String
  jsonText : Option String
deriving Repr

/-- Environment of `transcribeAudio`: the `HUGGINGFACE_API_TOKEN` variable
and the successive responses returned by `fetch`. -/
structure HFEnv where
  token : Option String
  responses : List HFResponse
deriving Repr

/-- Observable outcome of one `transcribeAudio` call: its result, how many
backend requests were sent, and how long it slept between them. -/
structure TranscribeOut where
  result : Except String String
  fetches : Nat
  sleptMs : Nat
deriving Repr

/-- Model of `response.ok`: status in the 200-299 range. -/
def respOk (r : HFResponse) : Bool := 200 ≤ r.status && r.status < 300

/-- The `Hugging Face API error: {status} - {body}` message of the source. -/
def hfApiError (r : HFResponse) : String :=
  "Hugging Face API error: " ++ toString r.status ++ " - " ++ r.bodyText

/-- The catch block of `transcribeAudio`, rewriting the raised message. -/
def transcribeCatch (m : String) : String :=
  if containsStr m "HUGGINGFACE_API_TOKEN" then
    "Hugging Face token not configured. Get your free token from: https://huggingface.co/settings/tokens"
  else if containsStr m "401" || containsStr m "403" then
    "Invalid Hugging Face token. Please check your HUGGINGFACE_API_TOKEN in .env.local"
  else "Failed to transcribe audio: " ++ m

/-- `transcribeAudio` from `src/lib/audio-processor.ts` (Hugging Face
variant): checks the token, reads the audio file, posts it; on a 503 it
sleeps 20 000 ms and retries exactly once; an OK response whose `text`
field is missing, empty or whitespace-only resolves with the empty
string. -/
def transcribeAudio (fs : FS) (env : HFEnv) (audioPath : String)
    (_languageCode : String) : TranscribeOut :=
  match env.token with
  | none =>
    ⟨Except.error (transcribeCatch
      "HUGGINGFACE_API_TOKEN not found. Get your free token from https://huggingface.co/settings/tokens"),
      0, 0⟩
  | some _ =>
    if FS.hasFile fs audioPath = false then
      ⟨Except.error (transcribeCatch
        ("ENOENT: no such file or directory, open " ++ audioPath)), 0, 0⟩
    else
      match env.responses with
      | [] => ⟨Except.error (transcribeCatch "fetch failed"), 1, 0⟩
      | r1 :: rest =>
        if respOk r1 then
          let transcript := r1.jsonText.getD ""
          if strTrim transcript = "" then ⟨Except.ok "", 1, 0⟩
          else ⟨Except.ok transcript, 1, 0⟩
        else if r1.status = 503 then
          match rest with
          | [] => ⟨Except.error (transcribeCatch "fetch failed"), 2, 20000⟩
          | r2 :: _ =>
            if respOk r2 then ⟨Except.ok (r2.jsonText.getD ""), 2, 20000⟩
            else ⟨Except.error (transcribeCatch (hfApiError r2)), 2, 20000⟩
        else ⟨Except.error (transcribeCatch (hfApiError r1)), 1, 0⟩

/-- Model of `cleanupTempFiles` from `src/lib/audio-processor.ts`: for each
listed path, delete it when it exists; errors are swallowed, so the
function is total. -/
def cleanupTempFiles (fs : FS) (files : List String) : FS :=
  files.foldl (fun acc f => if FS.hasFile acc f then FS.remove acc f else acc) fs

/-- Result record of `processAudioComplete`. -/
structure AudioPipeOut where
  transcript : String
  wavPath : String
  cleanPath : String
  tempFiles : List String
deriving Repr

/-- `processAudioComplete` from `src/lib/audio-processor.ts`:
convert, denoise, transcribe; paths differing from their input are recorded
as temp files, and on any error the recorded temp files are deleted before
the error is re-raised. -/
def processAudioComplete (fs : FS) (cOut dOut : FfmpegOutcome) (hf : HFEnv)
    (filePath language : String) : FS × Except String AudioPipeOut :=
  match convertToWAV fs cOut filePath with
  | Except.error e => (fs, Except.error e)
  | Except.ok (fs1, wavPath) =>
    let tf0 : List String := if wavPath = filePath then [] else [wavPath]
    match reduceNoise fs1 dOut wavPath with
    | (fs2, cleanPath) =>
      let tf1 := tf0 ++ (if cleanPath = wavPath then [] else [cleanPath])
      match (transcribeAudio fs2 hf cleanPath language).result with
      | Except.ok t => (fs2, Except.ok ⟨t, wavPath, cleanPath, tf1⟩)
      | Except.error e => (cleanupTempFiles fs2 tf1, Except.error e)

/-- Environment of the `analyze-transcript` step: the `GROQ_API_KEY`
variable and the outcome of the chat-completion call (`Except.error` for a
network or auth failure, otherwise the nullable `message.content`). -/
structure GroqChat where
  key : Option String
  content : Except String (Option String)
deriving Repr

/-- JavaScript `content || '\x7b\x7d'`: `||` takes the right operand on
every falsy left operand, so both a `null` content and the empty string
default to `'\x7b\x7d'`. -/
def contentOrEmptyObj (c : Option String) : String :=
  match c with
  | none => "\x7b\x7d"
  | some s => if s = "" then "\x7b\x7d" else s

/-- The `analyze-transcript` step of `processFinancialAudio`
(`src/lib/inngest/functions.ts` lines 177-246): checks the key, makes the
chat call, takes `content || '\x7b\x7d'`, and runs `JSON.parse` on it;
every failure is re-thrown as `Failed to analyze transcript: ...`. The
parsed value is returned as-is, with no normalization. -/
def analyzeTranscript (g : GroqChat) (_transcript : String) : Except String Json :=
  match g.key with
  | none => Except.error "Failed to analyze transcript: GROQ_API_KEY is missing"
  | some _ =>
    match g.content with
    | Except.error m => Except.error ("Failed to analyze transcript: " ++ m)
    | Except.ok c =>
      match parseJson (contentOrEmptyObj c) with
      | Except.error e => Except.error ("Failed to analyze transcript: " ++ e)
      | Except.ok j => Except.ok j

/-- The claim-relevant fields of a `FinancialDocument` record
(`src/models/FinancialDocument.ts`). The schema has no enhanced-audio
reference field. -/
structure JobRec where
  status : String
  transcript : Option String
  sentiment : Option Json
  speakers : Option Json
  topics : Option Json
  intent : Option Json
  financialEvents : Option Json
  emotionalState : Option Json
  complianceNotes : Option Json
  processingError : Option String

/-- A freshly created job record, as the upload route creates it. -/
def freshJob : JobRec :=
  ⟨"PROCESSING", none, none, none, none, none, none, none, none, none⟩

/-- Mongoose `findByIdAndUpdate` field semantics: a JavaScript `undefined`
value (a missing JSON field here) is dropped from the update, leaving the
stored value; a present value (including JSON `null`) overwrites it. -/
def jsonFieldOr (a : Json) (k : String) (old : Option Json) : Option Json :=
  match Json.getField a k with
  | some v => some v
  | none => old

/-- The successful `update-database` write of `processFinancialAudio`
(lines 253-274): status `COMPLETED`, the transcript, and the analysis
fields copied verbatim from the parsed model output. -/
def dbUpdateFields (j : JobRec) (transcript : String) (a : Json) : JobRec :=
  { j with
      status := "COMPLETED"
      transcript := some transcript
      sentiment := jsonFieldOr a "sentiment" j.sentiment
      speakers := jsonFieldOr a "speakers" j.speakers
      topics := jsonFieldOr a "topics" j.topics
      intent := jsonFieldOr a "intent" j.intent
      financialEvents := jsonFieldOr a "financialEvents" j.financialEvents
      emotionalState := jsonFieldOr a "emotionalState" j.emotionalState
      complianceNotes := jsonFieldOr a "complianceNotes" j.complianceNotes }

/-- The transcript and backend flag returned by the
`process-audio-pipeline` step. -/
structure AudioResult where
  transcript : String
  usedHuggingFace : Bool
deriving Repr

/-- Full environment of one `processFinancialAudio` run: initial
filesystem, event data, all external-call oracles, and the initial
database record for the document id (`none` = not found). -/
structure PipelineEnv where
  fs : FS
  documentId : String
  filePath : String
  language : String
  convertOut : FfmpegOutcome
  denoiseOut : FfmpegOutcome
  hfToken : Option String
  hfResponses : List HFResponse
  groqKey : Option String
  groqTranscription : Except String String
  chatContent : Except String (Option String)
  db : Option JobRec
  dbWrite : Except String Unit

/-- Step 1 (`process-audio-pipeline`, lines 113-174): existence check, the
Hugging Face pipeline attempt, the Groq Whisper fallback on its failure,
and the empty-transcript rejection. Returns the filesystem after the step,
the orchestrator's `tempFiles` closure variable, and the step outcome. -/
def runStep1 (env : PipelineEnv) : FS × List String × Except String AudioResult :=
  if FS.hasFile env.fs env.filePath = false then
    (env.fs, [],
     Except.error ("Failed to process audio: Audio file not found at path: " ++ env.filePath))
  else
    match processAudioComplete env.fs env.convertOut env.denoiseOut
        ⟨env.hfToken, env.hfResponses⟩ env.filePath env.language with
    | (fs1, Except.ok r) =>
      if strTrim r.transcript = "" then
        (fs1, r.tempFiles,
         Except.error "Failed to process audio: Transcription resulted in empty text")
      else (fs1, r.tempFiles, Except.ok ⟨r.transcript, true⟩)
    | (fs1, Except.error _) =>
      match env.groqKey with
      | none =>
        (fs1, [],
         Except.error "Failed to process audio: Both Hugging Face and Groq credentials are missing")
      | some _ =>
        -- the fallback posts `filePath.replace(/\.(m4a|mp3)$/i, '.wav')` when
        -- that file exists, else `filePath` (`replaceM4aMp3Suffix`); which
        -- file is posted is invisible here since the transcription outcome
        -- is the `groqTranscription` oracle
        match env.groqTranscription with
        | Except.error m => (fs1, [], Except.error ("Failed to process audio: " ++ m))
        | Except.ok t =>
          if strTrim t = "" then
            (fs1, [],
             Except.error "Failed to process audio: Transcription resulted in empty text")
          else (fs1, [], Except.ok ⟨t, false⟩)

/-- Final observable state of one `processFinancialAudio` run. -/
structure RunOut where
  fs : FS
  db : Option JobRec
  result : Except String String

/-- The `processFinancialAudio` Inngest function
(`src/lib/inngest/functions.ts` lines 97-316): step 1 audio pipeline,
step 2 transcript analysis, step 3 database update (whose catch marks the
job `FAILED` before re-throwing), step 4 temp-file cleanup; the outer
catch deletes the recorded temp files and re-raises, touching no database
state. -/
def processFinancialAudio (env : PipelineEnv) : RunOut :=
  match runStep1 env with
  | (fs1, temps, Except.error e) => ⟨cleanupTempFiles fs1 temps, env.db, Except.error e⟩
  | (fs1, temps, Except.ok ar) =>
    match analyzeTranscript ⟨env.groqKey, env.chatContent⟩ ar.transcript with
    | Except.error e => ⟨cleanupTempFiles fs1 temps, env.db, Except.error e⟩
    | Except.ok analysis =>
      match env.db with
      | none =>
        ⟨cleanupTempFiles fs1 temps, none,
         Except.error ("Document with ID " ++ env.documentId ++ " not found")⟩
      | some j =>
        match env.dbWrite with
        | Except.error m =>
          ⟨cleanupTempFiles fs1 temps,
           some { j with status := "FAILED", processingError := some m },
           Except.error m⟩
        | Except.ok _ =>
          ⟨cleanupTempFiles fs1 temps, some (dbUpdateFields j ar.transcript analysis),
           Except.ok "completed"⟩

/-- Concrete run for C1: transcription succeeds via Hugging Face, then the
extraction chat call fails with a network error. -/
def c1Env : PipelineEnv :=
  { fs := [("call.m4a", ⟨48000, 2⟩)]
    documentId := "doc1"
    filePath := "call.m4a"
    language := "hi-IN"
    convertOut := FfmpegOutcome.ok
    denoiseOut := FfmpegOutcome.ok
    hfToken := some "hf-token"
    hfResponses := [⟨200, "", some "hello world"⟩]
    groqKey := some "groq-key"
    groqTranscription := Except.ok "unused"
    chatContent := Except.error "network error"
    db := some freshJob
    dbWrite := Except.ok () }

/-- Concrete run for C2: the Hugging Face transcription fails with a 500
and the Groq Whisper fallback fails too, so step 1 fails irrecoverably. -/
def c2Env : PipelineEnv :=
  { fs := [("call.m4a", ⟨48000, 2⟩)]
    documentId := "doc2"
    filePath := "call.m4a"
    language := "hi-IN"
    convertOut := FfmpegOutcome.ok
    denoiseOut := FfmpegOutcome.ok
    hfToken := some "hf-token"
    hfResponses := [⟨500, "boom", none⟩]
    groqKey := some "groq-key"
    groqTranscription := Except.error "groq down"
    chatContent := Except.ok (some "\x7b\x7d")
    db := some freshJob
    dbWrite := Except.ok () }

/-- Concrete run for C5: every step succeeds; the analysis returns a
sentiment and a speaker list. -/
def c5Env : PipelineEnv :=
  { fs := [("call.m4a", ⟨48000, 2⟩)]
    documentId := "doc5"
    filePath := "call.m4a"
    language := "hi-IN"
    convertOut := FfmpegOutcome.ok
    denoiseOut := FfmpegOutcome.ok
    hfToken := some "hf-token"
    hfResponses := [⟨200, "", some "hello world"⟩]
    groqKey := some "groq-key"
    groqTranscription := Except.ok "unused"
    chatContent := Except.ok (some "\x7b\"sentiment\":\"Positive\",\"speakers\":[\"Agent\"]\x7d")
    db := some freshJob
    dbWrite := Except.ok () }


theorem FS.get?_remove (fs : FS) (q p : String) :
    FS.get? (FS.remove fs q) p = if p = q then none else FS.get? fs p := by
  induction fs with
  | nil => by_cases hpq : p = q <;> simp [FS.remove, FS.get?, hpq]
  | cons e fs ih =>
    by_cases hq : e.1 = q <;> by_cases hep : e.1 = p <;>
      simp_all [FS.remove, FS.get?]

theorem FS.get?_set (fs : FS) (q : String) (m : AudioMeta) (p : String) :
    FS.get? (FS.set fs q m) p = if p = q then some m else FS.get? fs p := by
  by_cases hpq : p = q
  · simp [FS.set, FS.get?, hpq]
  · have : q ≠ p := fun hc => hpq hc.symm
    simp [FS.set, FS.get?, this, hpq, FS.get?_remove]

theorem FS.hasFile_set (fs : FS) (q : String) (m : AudioMeta) (p : String) :
    FS.hasFile (FS.set fs q m) p = (p = q || FS.hasFile fs p) := by
  by_cases hpq : p = q <;> simp [FS.hasFile, FS.get?_set, hpq]

theorem FS.hasFile_remove (fs : FS) (q p : String) :
    FS.hasFile (FS.remove fs q) p = (decide (p ≠ q) && FS.hasFile fs p) := by
  by_cases hpq : p = q <;> simp [FS.hasFile, FS.get?_remove, hpq]

theorem cleanupTempFiles_get? (files : List String) (fs : FS) (p : String) :
    FS.get? (cleanupTempFiles fs files) p
      = if p ∈ files then none else FS.get? fs p := by
  induction files generalizing fs with
  | nil => simp [cleanupTempFiles]
  | cons f rest ih =>
    have step : cleanupTempFiles fs (f :: rest)
        = cleanupTempFiles (if FS.hasFile fs f then FS.remove fs f else fs) rest := by
      simp [cleanupTempFiles, List.foldl_cons]
    rw [step]
    by_cases hf : FS.hasFile fs f
    · rw [if_pos hf, ih]
      by_cases hp : p ∈ rest
      · simp [hp]
      · by_cases hpf : p = f
        · simp [hp, hpf, FS.get?_remove]
        · simp [hp, hpf, FS.get?_remove]
    · rw [if_neg hf, ih]
      by_cases hp : p ∈ rest
      · simp [hp]
      · by_cases hpf : p = f
        · subst hpf
          have : FS.get? fs p = none := by
            by_contra hc
            exact hf (by simp [FS.hasFile, Option.isSome_iff_ne_none, hc])
          simp [hp, this]
        · simp [hp, hpf]

theorem cleanupTempFiles_of_none (files : List String) (fs : FS)
    (h : ∀ f ∈ files, FS.hasFile fs f = false) :
    cleanupTempFiles fs files = fs := by
  induction files generalizing fs with
  | nil => rfl
  | cons f rest ih =>
    have step : cleanupTempFiles fs (f :: rest)
        = cleanupTempFiles (if FS.hasFile fs f then FS.remove fs f else fs) rest := by
      simp [cleanupTempFiles, List.foldl_cons]
    rw [step, if_neg (by simp [h f (by simp)])]
    exact ih fs (fun g hg => h g (by simp [hg]))

theorem cleanupTempFiles_hasFile (files : List String) (fs : FS) (p : String) :
    FS.hasFile (cleanupTempFiles fs files) p
      = (decide (p ∉ files) && FS.hasFile fs p) := by
  by_cases hp : p ∈ files <;> simp [FS.hasFile, cleanupTempFiles_get?, hp]

/-- C10: `cleanupTempFiles` is total by construction (every `unlinkSync`
error is swallowed); it deletes exactly the listed paths that exist, leaves
every other path untouched, and running it a second time on the same list
is a no-op. -/
theorem cleanupTempFiles_exact_and_idempotent (fs : FS) (files : List String) (p : String) :
    (FS.get? (cleanupTempFiles fs files) p
      = if p ∈ files then none else FS.get? fs p) ∧
    cleanupTempFiles (cleanupTempFiles fs files) files = cleanupTempFiles fs files := by
  refine ⟨cleanupTempFiles_get? files fs p, ?_⟩
  apply cleanupTempFiles_of_none
  intro f hf
  simp [cleanupTempFiles_hasFile, hf]

/-- C6 (amended): `convertToWAV` skips work and returns the input exactly
when the lowercased `path.extname` is `.wav` — regardless of the actual
sample rate or channel count — and any conversion it does perform produces
a 16 kHz mono file at the derived path. -/
theorem convertToWAV_ext_dispatch (fs : FS) (oc : FfmpegOutcome) (p : String) :
    (strToLower (extname p) = ".wav" → convertToWAV fs oc p = Except.ok (fs, p)) ∧
    (strToLower (extname p) ≠ ".wav" →
      convertToWAV fs FfmpegOutcome.ok p
        = Except.ok (FS.set fs (replaceAudioSuffix p) ⟨16000, 1⟩, replaceAudioSuffix p) ∧
      FS.get? (FS.set fs (replaceAudioSuffix p) ⟨16000, 1⟩) (replaceAudioSuffix p)
        = some ⟨16000, 1⟩) := by
  refine ⟨fun h => by simp [convertToWAV, h], fun h => ⟨by simp [convertToWAV, h], ?_⟩⟩
  simp [FS.get?_set]

/-- C6, counterexample: a 44.1 kHz stereo (hence non-canonical) `.wav`
input is returned unchanged with no new file, so "no-op exactly when
canonical" fails. -/
theorem convertToWAV_non_canonical_counterexample :
    convertToWAV [("talk.wav", ⟨44100, 2⟩)] FfmpegOutcome.ok "talk.wav"
      = Except.ok ([("talk.wav", ⟨44100, 2⟩)], "talk.wav") ∧
    (44100 ≠ 16000 ∧ 2 ≠ 1) := ⟨rfl, by decide, by decide⟩

/-- C6, witness for `convertToWAV_ext_dispatch`. -/
theorem convertToWAV_ext_dispatch_witness :
    convertToWAV [] FfmpegOutcome.ok "b.wav" = Except.ok ([], "b.wav") ∧
    convertToWAV [] FfmpegOutcome.ok "a.mp3"
      = Except.ok (FS.set [] (replaceAudioSuffix "a.mp3") ⟨16000, 1⟩,
          replaceAudioSuffix "a.mp3") :=
  ⟨(convertToWAV_ext_dispatch [] FfmpegOutcome.ok "b.wav").1 rfl,
   ((convertToWAV_ext_dispatch [] FfmpegOutcome.ok "a.mp3").2 (by decide)).1⟩

theorem containsSub_length_le (pat l : List Char)
    (h : containsSub pat l = true) : pat.length ≤ l.length := by
  induction l with
  | nil =>
    simp [containsSub, List.isEmpty_iff] at h
    simp [h]
  | cons c rest ih =>
    simp [containsSub, List.isPrefixOf_iff_prefix] at h
    rcases h with h | h
    · exact h.length_le
    · exact le_trans (ih h) (by simp)

theorem replaceFirstAux_of_not_contains (pat rep l : List Char)
    (h : containsSub pat l = false) : replaceFirstAux pat rep l = l := by
  induction l with
  | nil => rfl
  | cons c rest ih =>
    simp [containsSub] at h
    simp [replaceFirstAux, h.1, ih h.2]

theorem replaceFirstAux_length (pat rep l : List Char) (hpat : pat ≠ [])
    (h : containsSub pat l = true) :
    (replaceFirstAux pat rep l).length = l.length - pat.length + rep.length := by
  induction l with
  | nil =>
    simp [containsSub, List.isEmpty_iff] at h
    exact absurd h hpat
  | cons c rest ih =>
    by_cases hp : pat.isPrefixOf (c :: rest) = true
    · have hle : pat.length ≤ (c :: rest).length :=
        (List.isPrefixOf_iff_prefix.mp hp).length_le
      simp only [List.length_cons] at hle
      simp [replaceFirstAux, hp]
      omega
    · have h2 : containsSub pat rest = true := by
        simpa [containsSub, hp] using h
      have hle := containsSub_length_le pat rest h2
      have hne : pat.length ≤ rest.length := hle
      simp [replaceFirstAux, hp, ih h2]
      omega

/-- C8 (amended): `reduceNoise` never rejects; on a filter-chain failure it
returns the input path with the filesystem untouched (zero new files); on
success it writes to `inputPath.replace('.wav', '_clean.wav')`, which is a
genuinely new path whenever the input path contains `.wav`, but equals the
input path itself (the filter output overwrites the input in place) when it
does not. -/
theorem reduceNoise_cases (fs : FS) (p : String) :
    (∀ m, reduceNoise fs (FfmpegOutcome.err m) p = (fs, p)) ∧
    (containsStr p ".wav" = true → (reduceNoise fs FfmpegOutcome.ok p).2 ≠ p) ∧
    (containsStr p ".wav" = false →
      reduceNoise fs FfmpegOutcome.ok p
        = (FS.set fs p ((FS.get? fs p).getD ⟨16000, 1⟩), p)) := by
  refine ⟨fun m => rfl, ?_, ?_⟩
  · intro h heq
    have hlen : (replaceFirstAux ".wav".toList "_clean.wav".toList p.toList).length
        = p.toList.length - 4 + 10 :=
      replaceFirstAux_length _ _ _ (by decide) h
    have hge : (4 : Nat) ≤ p.toList.length := containsSub_length_le _ _ h
    have hdata : replaceFirstAux ".wav".toList "_clean.wav".toList p.toList = p.toList := by
      have := congrArg String.toList heq
      simpa [reduceNoise, replaceFirstStr] using this
    rw [hdata] at hlen
    omega
  · intro h
    have hid : replaceFirstAux ".wav".toList "_clean.wav".toList p.toList = p.toList :=
      replaceFirstAux_of_not_contains _ _ _ h
    have hout : replaceFirstStr p ".wav" "_clean.wav" = p := by
      cases p with
      | mk l => simpa [replaceFirstStr] using congrArg String.mk hid
    simp [reduceNoise, hout]

/-- C8, counterexample: on an input path not containing `.wav` (reachable:
a `.ogg` upload flows through `convertToWAV` unchanged in name), a
successful filter run returns the original input path even though no
failure occurred, and the filter output overwrites the input file in place
instead of creating a new cleaned file. -/
theorem reduceNoise_ogg_counterexample :
    reduceNoise [("a.ogg", ⟨16000, 1⟩)] FfmpegOutcome.ok "a.ogg"
      = ([("a.ogg", ⟨16000, 1⟩)], "a.ogg") := rfl

/-- C8, witness for `reduceNoise_cases`. -/
theorem reduceNoise_cases_witness :
    reduceNoise [] (FfmpegOutcome.err "boom") "call.wav" = ([], "call.wav") ∧
    (reduceNoise [] FfmpegOutcome.ok "call.wav").2 ≠ "call.wav" :=
  ⟨(reduceNoise_cases [] "call.wav").1 "boom",
   (reduceNoise_cases [] "call.wav").2.1 rfl⟩

theorem suffix4_decomp (l : List Char) (p1 p2 p3 p4 : Char)
    (h : List.isSuffixOf [p1, p2, p3, p4] (l.map charLower) = true) :
    ∃ x1 x2 x3 x4, l = l.take (l.length - 4) ++ [x1, x2, x3, x4] ∧
      charLower x1 = p1 ∧ charLower x2 = p2 ∧ charLower x3 = p3 ∧
      charLower x4 = p4 := by
  have hsuf : [p1, p2, p3, p4] <:+ l.map charLower := by
    simpa [List.isSuffixOf_iff_suffix] using h
  obtain ⟨t, ht⟩ := hsuf
  have hlen : l.length = t.length + 4 := by
    have := congrArg List.length ht
    simpa using this.symm
  have hdrop : (l.drop (l.length - 4)).map charLower = [p1, p2, p3, p4] := by
    have h1 : (l.map charLower).drop (l.length - 4) = [p1, p2, p3, p4] := by
      have ht' : t ++ [p1, p2, p3, p4] = l.map charLower := ht
      rw [← ht']
      have : l.length - 4 = t.length := by omega
      rw [this, List.drop_left]
    rw [← h1, List.map_drop]
  have hdlen : (l.drop (l.length - 4)).length = 4 := by
    simp [List.length_drop]
    omega
  rcases hd : l.drop (l.length - 4) with _ | ⟨x1, _ | ⟨x2, _ | ⟨x3, _ | ⟨x4, rest⟩⟩⟩⟩ <;>
    rw [hd] at hdrop hdlen <;> simp at hdrop hdlen
  have hrest : rest = [] := by
    cases rest with
    | nil => rfl
    | cons a b => simp at hdlen
  subst hrest
  refine ⟨x1, x2, x3, x4, ?_, hdrop.1, hdrop.2.1, hdrop.2.2.1, hdrop.2.2.2.1⟩
  have htd := List.take_append_drop (l.length - 4) l
  rw [hd] at htd
  exact htd.symm

theorem replaceAudioSuffix_ne (p : String) (hsuf : hasConvSuffix p = true) :
    replaceAudioSuffix p ≠ p := by
  have hcases :
      List.isSuffixOf ['.', 'm', '4', 'a'] (p.toList.map charLower) = true ∨
      List.isSuffixOf ['.', 'm', 'p', '3'] (p.toList.map charLower) = true ∨
      List.isSuffixOf ['.', 'm', 'p', '4'] (p.toList.map charLower) = true := by
    have h := hsuf
    simp only [hasConvSuffix, strEndsWith, strToLower, Bool.or_eq_true] at h
    rcases h with (h | h) | h
    · exact Or.inl (by simpa using h)
    · exact Or.inr (Or.inl (by simpa using h))
    · exact Or.inr (Or.inr (by simpa using h))
  have key : ∀ p2 p3 p4 : Char,
      List.isSuffixOf ['.', p2, p3, p4] (p.toList.map charLower) = true →
      charLower 'w' ≠ p2 → replaceAudioSuffix p ≠ p := by
    intro p2 p3 p4 hsf hw heq
    obtain ⟨x1, x2, x3, x4, hdec, h1, h2, h3, h4⟩ :=
      suffix4_decomp p.toList '.' p2 p3 p4 hsf
    have hout : replaceAudioSuffix p
        = String.mk ((p.toList.take (p.toList.length - 4))
            ++ ('.' :: 'w' :: 'a' :: 'v' :: [])) := by
      simp [replaceAudioSuffix, hsuf]
    have hlist : (p.toList.take (p.toList.length - 4))
        ++ ('.' :: 'w' :: 'a' :: 'v' :: []) = p.toList := by
      have := congrArg String.toList (hout ▸ heq)
      simpa using this
    have hcomb : p.toList.take (p.toList.length - 4) ++ ('.' :: 'w' :: 'a' :: 'v' :: [])
        = p.toList.take (p.toList.length - 4) ++ [x1, x2, x3, x4] := by
      rw [hlist]
      exact hdec
    have hx : ('.' :: 'w' :: 'a' :: 'v' :: []) = [x1, x2, x3, x4] :=
      List.append_cancel_left hcomb
    have hx2 : x2 = 'w' := by
      injection hx with ha hb
      injection hb with hb _
      exact hb.symm
    rw [hx2] at h2
    exact hw h2
  rcases hcases with h | h | h
  · exact key 'm' '4' 'a' h (by decide)
  · exact key 'm' 'p' '3' h (by decide)
  · exact key 'm' 'p' '4' h (by decide)

/-- C7 (amended): for an input whose (lowercased) extension is not `.wav`
and whose name matches the replacement regex (`.m4a`, `.mp3`, `.mp4`), a
successful conversion writes exactly one new file, at the same stem with
the `.wav` extension, and leaves the input file untouched; for any other
non-`.wav` extension the derived output path equals the input path, so the
conversion overwrites its own input. -/
theorem convertToWAV_real_conversion (fs : FS) (p : String)
    (hext : strToLower (extname p) ≠ ".wav") (hsuf : hasConvSuffix p = true) :
    replaceAudioSuffix p ≠ p ∧
    convertToWAV fs FfmpegOutcome.ok p
      = Except.ok (FS.set fs (replaceAudioSuffix p) ⟨16000, 1⟩, replaceAudioSuffix p) ∧
    FS.get? (FS.set fs (replaceAudioSuffix p) ⟨16000, 1⟩) p = FS.get? fs p := by
  have hne := replaceAudioSuffix_ne p hsuf
  refine ⟨hne, by simp [convertToWAV, hext], ?_⟩
  rw [FS.get?_set]
  exact if_neg (fun hc => hne hc.symm)

/-- C7, counterexample: `audio.ogg` needs a real conversion (extension is
not `.wav`), yet the derived output path equals the input path, so the
conversion mutates the input file in place and creates no new file. -/
theorem convertToWAV_ogg_counterexample :
    convertToWAV [("audio.ogg", ⟨44100, 2⟩)] FfmpegOutcome.ok "audio.ogg"
      = Except.ok ([("audio.ogg", ⟨16000, 1⟩)], "audio.ogg") := rfl

/-- C7, witness for `convertToWAV_real_conversion`. -/
theorem convertToWAV_real_conversion_witness :
    replaceAudioSuffix "call.m4a" ≠ "call.m4a" ∧
    convertToWAV [("call.m4a", ⟨48000, 2⟩)] FfmpegOutcome.ok "call.m4a"
      = Except.ok (FS.set [("call.m4a", ⟨48000, 2⟩)] (replaceAudioSuffix "call.m4a")
          ⟨16000, 1⟩, replaceAudioSuffix "call.m4a") ∧
    FS.get? (FS.set [("call.m4a", ⟨48000, 2⟩)] (replaceAudioSuffix "call.m4a") ⟨16000, 1⟩)
        "call.m4a"
      = FS.get? [("call.m4a", ⟨48000, 2⟩)] "call.m4a" :=
  convertToWAV_real_conversion [("call.m4a", ⟨48000, 2⟩)] "call.m4a" (by decide) rfl

/-- C9: the Hugging Face transcription sends at most two backend requests;
on a 503 ("model warming up") first response it sleeps the fixed 20 000 ms
backoff and re-submits exactly once, and if that single retry also fails
the call returns an error. -/
theorem transcribeAudio_retry_policy (fs : FS) (env : HFEnv) (p lang : String) :
    (transcribeAudio fs env p lang).fetches ≤ 2 ∧
    (∀ r1 rest, env.responses = r1 :: rest → env.token.isSome = true →
      FS.hasFile fs p = true → r1.status = 503 →
      (transcribeAudio fs env p lang).sleptMs = 20000 ∧
      (transcribeAudio fs env p lang).fetches = 2 ∧
      (∀ r2 rest2, rest = r2 :: rest2 → respOk r2 = false →
        (transcribeAudio fs env p lang).result.isOk = false)) := by
  constructor
  · cases htok : env.token with
    | none => simp [transcribeAudio, htok]
    | some t =>
      by_cases hf : FS.hasFile fs p
      · cases hresp : env.responses with
        | nil => simp [transcribeAudio, htok, hf, hresp]
        | cons r1 rest =>
          by_cases h1 : respOk r1
          · by_cases ht : strTrim (r1.jsonText.getD "") = "" <;>
              simp [transcribeAudio, htok, hf, hresp, h1, ht]
          · by_cases h503 : r1.status = 503
            · cases rest with
              | nil => simp [transcribeAudio, htok, hf, hresp, h1, h503]
              | cons r2 rest2 =>
                by_cases h2 : respOk r2 <;>
                  simp [transcribeAudio, htok, hf, hresp, h1, h503, h2]
            · simp [transcribeAudio, htok, hf, hresp, h1, h503]
      · simp [transcribeAudio, htok, hf]
  · intro r1 rest hresp htok' hf h503
    obtain ⟨t, htok⟩ := Option.isSome_iff_exists.mp htok'
    have h1 : respOk r1 = false := by simp [respOk, h503]
    refine ⟨?_, ?_, ?_⟩
    · cases rest with
      | nil => simp [transcribeAudio, htok, hf, hresp, h1, h503]
      | cons r2 rest2 =>
        by_cases h2 : respOk r2 <;>
          simp [transcribeAudio, htok, hf, hresp, h1, h503, h2]
    · cases rest with
      | nil => simp [transcribeAudio, htok, hf, hresp, h1, h503]
      | cons r2 rest2 =>
        by_cases h2 : respOk r2 <;>
          simp [transcribeAudio, htok, hf, hresp, h1, h503, h2]
    · intro r2 rest2 hrest h2
      subst hrest
      simp [transcribeAudio, htok, hf, hresp, h1, h503, h2]
      rfl

/-- C9, witness for `transcribeAudio_retry_policy`: a concrete 503 then 500
run sleeps 20 s, sends exactly two requests and errors. -/
theorem transcribeAudio_retry_policy_witness :
    (transcribeAudio [("a.wav", ⟨16000, 1⟩)]
        ⟨some "tok", [⟨503, "warming", none⟩, ⟨500, "down", none⟩]⟩ "a.wav" "hi-IN").sleptMs
      = 20000 ∧
    (transcribeAudio [("a.wav", ⟨16000, 1⟩)]
        ⟨some "tok", [⟨503, "warming", none⟩, ⟨500, "down", none⟩]⟩ "a.wav" "hi-IN").fetches
      = 2 ∧
    (transcribeAudio [("a.wav", ⟨16000, 1⟩)]
        ⟨some "tok", [⟨503, "warming", none⟩, ⟨500, "down", none⟩]⟩ "a.wav" "hi-IN").result.isOk
      = false := by
  have h := (transcribeAudio_retry_policy [("a.wav", ⟨16000, 1⟩)]
      ⟨some "tok", [⟨503, "warming", none⟩, ⟨500, "down", none⟩]⟩ "a.wav" "hi-IN").2
      ⟨503, "warming", none⟩ [⟨500, "down", none⟩] rfl rfl rfl rfl
  exact ⟨h.1, h.2.1, h.2.2 ⟨500, "down", none⟩ [] rfl rfl⟩

/-- C4, counterexample: an OK backend response whose recognition text is
whitespace-only makes `transcribeAudio` resolve with the empty string — a
non-error, empty-after-trimming result — instead of raising. -/
theorem transcribeAudio_empty_ok_counterexample :
    (transcribeAudio [("a.wav", ⟨16000, 1⟩)] ⟨some "tok", [⟨200, "", some "   "⟩]⟩
        "a.wav" "hi-IN").result = Except.ok "" ∧
    strTrim "" = "" := ⟨rfl, rfl⟩

/-- C4 (amended): `transcribeAudio` itself returns the empty string on an
empty or whitespace-only recognition result; the rejection of empty
transcripts happens one level up, in the orchestrator's
`process-audio-pipeline` step, so whenever that step succeeds its
transcript is non-empty after trimming. -/
theorem runStep1_ok_transcript_nonempty (env : PipelineEnv) (fs1 : FS)
    (temps : List String) (ar : AudioResult)
    (h : runStep1 env = (fs1, temps, Except.ok ar)) :
    strTrim ar.transcript ≠ "" := by
  unfold runStep1 at h
  repeat' split at h
  all_goals simp_all
  · obtain ⟨-, -, har⟩ := h
    rw [← har]
    simp_all
  · obtain ⟨-, -, har⟩ := h
    rw [← har]
    simp_all

/-- C4, witness for `runStep1_ok_transcript_nonempty`. -/
theorem runStep1_ok_transcript_nonempty_witness :
    strTrim (AudioResult.mk "hello world" true).transcript ≠ "" :=
  runStep1_ok_transcript_nonempty c5Env
    (FS.set (FS.set [("call.m4a", ⟨48000, 2⟩)] "call.wav" ⟨16000, 1⟩)
      "call_clean.wav" ⟨16000, 1⟩)
    ["call.wav", "call_clean.wav"] ⟨"hello world", true⟩ rfl

/-- C3, counterexample: the `analyze-transcript` step feeds the raw model
output straight to `JSON.parse`: a bare non-JSON string makes the step
throw instead of returning a record, and a parseable record is persisted
verbatim — the lowercase sentiment `positive` is not case-normalized to
`Positive` (nor defaulted to `Neutral`). -/
theorem analyzeTranscript_counterexample :
    (analyzeTranscript ⟨some "key", Except.ok (some "hello")⟩ "call").isOk = false ∧
    analyzeTranscript ⟨some "key", Except.ok (some "\x7b\"sentiment\":\"positive\"\x7d")⟩ "call"
      = Except.ok (Json.obj [("sentiment", Json.str "positive")]) := ⟨rfl, rfl⟩

/-- C3 (amended): with the key present and the chat call succeeding, the
step returns exactly the raw `JSON.parse` of `content || '\x7b\x7d'`
(JavaScript `||`, so a null or empty content defaults to the empty object)
— no sentiment coercion and no array normalization are applied — and it
throws whenever that parse fails. -/
theorem analyzeTranscript_raw_parse (k : String) (c : Option String) (t : String) :
    (∀ j, parseJson (contentOrEmptyObj c) = Except.ok j →
      analyzeTranscript ⟨some k, Except.ok c⟩ t = Except.ok j) ∧
    (∀ m, parseJson (contentOrEmptyObj c) = Except.error m →
      (analyzeTranscript ⟨some k, Except.ok c⟩ t).isOk = false) ∧
    analyzeTranscript ⟨some k, Except.ok (some "")⟩ t = Except.ok (Json.obj []) := by
  refine ⟨?_, ?_, ?_⟩
  · intro j hj
    simp [analyzeTranscript, hj]
  · intro m hm
    simp [analyzeTranscript, hm]
    rfl
  · rfl

/-- C3, witness for `analyzeTranscript_raw_parse`: the raw parse of a
model output with lowercase sentiment and an object-valued speakers array
is returned untouched. -/
theorem analyzeTranscript_raw_parse_witness :
    analyzeTranscript ⟨some "key",
        Except.ok (some "\x7b\"sentiment\":\"negative\",\"speakers\":[\x7b\"name\":\"Agent\"\x7d]\x7d")⟩
        "call"
      = Except.ok (Json.obj [("sentiment", Json.str "negative"),
          ("speakers", Json.arr [Json.obj [("name", Json.str "Agent")]])]) :=
  (analyzeTranscript_raw_parse "key"
      (some "\x7b\"sentiment\":\"negative\",\"speakers\":[\x7b\"name\":\"Agent\"\x7d]\x7d")
      "call").1
    (Json.obj [("sentiment", Json.str "negative"),
      ("speakers", Json.arr [Json.obj [("name", Json.str "Agent")]])]) rfl

/-- C1 (amended): when transcription has succeeded and the extraction chat
call then fails (network/auth), the `analyze-transcript` step throws
`Failed to analyze transcript: ...`; the orchestrator deletes the run's
temp files and re-raises — the job record is left exactly as it was (no
`COMPLETED`, no transcript, no degraded record is persisted). -/
theorem processFinancialAudio_extraction_failure (env : PipelineEnv) (fs1 : FS)
    (temps : List String) (ar : AudioResult) (k m : String)
    (h1 : runStep1 env = (fs1, temps, Except.ok ar))
    (hk : env.groqKey = some k)
    (hc : env.chatContent = Except.error m) :
    processFinancialAudio env
      = ⟨cleanupTempFiles fs1 temps, env.db,
         Except.error ("Failed to analyze transcript: " ++ m)⟩ := by
  simp [processFinancialAudio, h1, analyzeTranscript, hk, hc]

/-- C1, counterexample: in the concrete run `c1Env` (transcript
`hello world` obtained, then a network error at the extraction backend)
the job's record is left in `PROCESSING` with no transcript and no
extracted record — not `COMPLETED` with a degraded record. -/
theorem processFinancialAudio_extraction_failure_counterexample :
    (processFinancialAudio c1Env).result
      = Except.error "Failed to analyze transcript: network error" ∧
    (processFinancialAudio c1Env).db = some freshJob ∧
    freshJob.status = "PROCESSING" ∧ freshJob.transcript = none ∧
    freshJob.sentiment = none := ⟨rfl, rfl, rfl, rfl, rfl⟩

/-- C1, witness for `processFinancialAudio_extraction_failure`. -/
theorem processFinancialAudio_extraction_failure_witness :
    processFinancialAudio c1Env
      = ⟨cleanupTempFiles
           (FS.set (FS.set [("call.m4a", ⟨48000, 2⟩)] "call.wav" ⟨16000, 1⟩)
             "call_clean.wav" ⟨16000, 1⟩)
           ["call.wav", "call_clean.wav"],
         c1Env.db, Except.error ("Failed to analyze transcript: " ++ "network error")⟩ :=
  processFinancialAudio_extraction_failure c1Env
    (FS.set (FS.set [("call.m4a", ⟨48000, 2⟩)] "call.wav" ⟨16000, 1⟩)
      "call_clean.wav" ⟨16000, 1⟩)
    ["call.wav", "call_clean.wav"] ⟨"hello world", true⟩ "groq-key" "network error"
    rfl rfl rfl

theorem convertToWAV_hasFile (fs : FS) (oc : FfmpegOutcome) (ip : String)
    (fs1 : FS) (wav : String) (h : convertToWAV fs oc ip = Except.ok (fs1, wav))
    (p : String) (hp : FS.hasFile fs1 p = true) :
    FS.hasFile fs p = true ∨ p = wav := by
  by_cases hext : strToLower (extname ip) = ".wav"
  · simp [convertToWAV, hext] at h
    obtain ⟨h1, -⟩ := h
    rw [← h1] at hp
    exact Or.inl hp
  · cases oc with
    | ok =>
      simp [convertToWAV, hext] at h
      obtain ⟨h1, h2⟩ := h
      rw [← h1, FS.hasFile_set] at hp
      simp at hp
      rcases hp with hp | hp
      · exact Or.inr (hp.trans h2)
      · exact Or.inl hp
    | err m => simp [convertToWAV, hext] at h

theorem reduceNoise_hasFile (fs : FS) (oc : FfmpegOutcome) (ip p : String)
    (hp : FS.hasFile (reduceNoise fs oc ip).1 p = true) :
    FS.hasFile fs p = true ∨ p = (reduceNoise fs oc ip).2 := by
  cases oc with
  | ok =>
    simp only [reduceNoise] at hp ⊢
    rw [FS.hasFile_set] at hp
    simp at hp
    rcases hp with hp | hp
    · exact Or.inr hp
    · exact Or.inl hp
  | err m => exact Or.inl hp

theorem processAudioComplete_ok_hasFile (fs : FS) (cOut dOut : FfmpegOutcome)
    (hf : HFEnv) (filePath language : String) (fs' : FS) (r : AudioPipeOut)
    (hsrc : FS.hasFile fs filePath = true)
    (h : processAudioComplete fs cOut dOut hf filePath language = (fs', Except.ok r))
    (p : String) (hp : FS.hasFile fs' p = true) :
    FS.hasFile fs p = true ∨ p ∈ r.tempFiles := by
  obtain ⟨rt, rwp, rcp, rtf⟩ := r
  unfold processAudioComplete at h
  cases hc : convertToWAV fs cOut filePath with
  | error e => rw [hc] at h; simp at h
  | ok pr =>
    obtain ⟨fs1, wavPath⟩ := pr
    rw [hc] at h
    dsimp only at h
    cases hr : reduceNoise fs1 dOut wavPath with
    | mk fs2 cleanPath =>
      rw [hr] at h
      cases ht : (transcribeAudio fs2 hf cleanPath language).result with
      | error e => rw [ht] at h; simp at h
      | ok t =>
        rw [ht] at h
        simp at h
        obtain ⟨hfs, -, hwp, hcp, htf⟩ := h
        rw [← hfs] at hp
        have hstage : FS.hasFile fs1 p = true ∨ p = cleanPath := by
          have hx := reduceNoise_hasFile fs1 dOut wavPath p
          rw [hr] at hx
          exact hx hp
        have hwav : p = wavPath → FS.hasFile fs p = true ∨ p ∈ rtf := by
          intro hpw
          by_cases hw : wavPath = filePath
          · rw [hpw, hw]
            exact Or.inl hsrc
          · right
            rw [← htf]
            simp [hw, hpw]
        have hclean : p = cleanPath → FS.hasFile fs p = true ∨ p ∈ rtf := by
          intro hpc
          by_cases hcw : cleanPath = wavPath
          · exact hwav (hpc.trans hcw)
          · right
            rw [← htf]
            simp [hcw, hpc]
        rcases hstage with hst | hst
        · rcases convertToWAV_hasFile fs cOut filePath fs1 wavPath hc p hst with hh | hh
          · exact Or.inl hh
          · exact hwav hh
        · exact hclean hst

theorem processAudioComplete_err_hasFile (fs : FS) (cOut dOut : FfmpegOutcome)
    (hf : HFEnv) (filePath language : String) (fs' : FS) (e : String)
    (hsrc : FS.hasFile fs filePath = true)
    (h : processAudioComplete fs cOut dOut hf filePath language = (fs', Except.error e))
    (p : String) (hp : FS.hasFile fs' p = true) :
    FS.hasFile fs p = true := by
  unfold processAudioComplete at h
  cases hc : convertToWAV fs cOut filePath with
  | error e2 =>
    rw [hc] at h
    simp at h
    obtain ⟨h1, -⟩ := h
    rw [← h1] at hp
    exact hp
  | ok pr =>
    obtain ⟨fs1, wavPath⟩ := pr
    rw [hc] at h
    dsimp only at h
    cases hr : reduceNoise fs1 dOut wavPath with
    | mk fs2 cleanPath =>
      rw [hr] at h
      cases ht : (transcribeAudio fs2 hf cleanPath language).result with
      | ok t => rw [ht] at h; simp at h
      | error e2 =>
        rw [ht] at h
        simp at h
        obtain ⟨h1, -⟩ := h
        rw [← h1] at hp
        rw [cleanupTempFiles_hasFile] at hp
        simp at hp
        obtain ⟨hnot, hp2⟩ := hp
        have hstage : FS.hasFile fs1 p = true ∨ p = cleanPath := by
          have hx := reduceNoise_hasFile fs1 dOut wavPath p
          rw [hr] at hx
          exact hx hp2
        have hwav : p = wavPath → FS.hasFile fs p = true := by
          intro hpw
          by_cases hw : wavPath = filePath
          · rw [hpw, hw]
            exact hsrc
          · rcases hnot.1 with hx | hx
            · exact absurd hx hw
            · exact absurd hpw hx
        have hclean : p = cleanPath → FS.hasFile fs p = true := by
          intro hpc
          by_cases hcw : cleanPath = wavPath
          · exact hwav (hpc.trans hcw)
          · rcases hnot.2 with hx | hx
            · exact absurd hx hcw
            · exact absurd hpc hx
        rcases hstage with hst | hst
        · rcases convertToWAV_hasFile fs cOut filePath fs1 wavPath hc p hst with hh | hh
          · exact hh
          · exact hwav hh
        · exact hclean hst

theorem runStep1_error_no_new_files (env : PipelineEnv) (fs1 : FS)
    (temps : List String) (e : String)
    (h : runStep1 env = (fs1, temps, Except.error e)) (p : String)
    (hp : FS.hasFile (cleanupTempFiles fs1 temps) p = true) :
    FS.hasFile env.fs p = true := by
  unfold runStep1 at h
  by_cases hsrc : FS.hasFile env.fs env.filePath = false
  · simp [hsrc] at h
    obtain ⟨h1, h2, -⟩ := h
    subst h1
    subst h2
    simpa [cleanupTempFiles] using hp
  · have hsrc' : FS.hasFile env.fs env.filePath = true := by
      simpa using hsrc
    rw [if_neg hsrc] at h
    cases hpc : processAudioComplete env.fs env.convertOut env.denoiseOut
        ⟨env.hfToken, env.hfResponses⟩ env.filePath env.language with
    | mk fs1' res =>
      rw [hpc] at h
      cases res with
      | ok r =>
        dsimp only at h
        by_cases htr : strTrim r.transcript = ""
        · rw [if_pos htr] at h
          simp at h
          obtain ⟨h1, h2, -⟩ := h
          subst h1
          subst h2
          rw [cleanupTempFiles_hasFile] at hp
          simp at hp
          obtain ⟨hnot, hp2⟩ := hp
          rcases processAudioComplete_ok_hasFile env.fs env.convertOut env.denoiseOut
              ⟨env.hfToken, env.hfResponses⟩ env.filePath env.language fs1' r
              hsrc' hpc p hp2 with hh | hh
          · exact hh
          · exact absurd hh hnot
        · rw [if_neg htr] at h
          simp at h
      | error e2 =>
        dsimp only at h
        have hfromerr : FS.hasFile fs1' p = true → FS.hasFile env.fs p = true :=
          fun hq => processAudioComplete_err_hasFile env.fs env.convertOut env.denoiseOut
            ⟨env.hfToken, env.hfResponses⟩ env.filePath env.language fs1' e2
            hsrc' hpc p hq
        cases hgk : env.groqKey with
        | none =>
          rw [hgk] at h
          simp at h
          obtain ⟨h1, h2, -⟩ := h
          subst h1
          subst h2
          exact hfromerr (by simpa [cleanupTempFiles] using hp)
        | some k =>
          rw [hgk] at h
          cases hgt : env.groqTranscription with
          | error m =>
            rw [hgt] at h
            simp at h
            obtain ⟨h1, h2, -⟩ := h
            subst h1
            subst h2
            exact hfromerr (by simpa [cleanupTempFiles] using hp)
          | ok t =>
            rw [hgt] at h
            dsimp only at h
            by_cases htr : strTrim t = ""
            · rw [if_pos htr] at h
              simp at h
              obtain ⟨h1, h2, -⟩ := h
              subst h1
              subst h2
              exact hfromerr (by simpa [cleanupTempFiles] using hp)
            · rw [if_neg htr] at h
              simp at h

/-- C2 (amended): when step 1 (the audio pipeline, including transcription)
fails irrecoverably, the run ends in error and every file created during
the run has been removed (no path absent from the initial filesystem
survives), but the job record is NOT updated: it keeps its prior status and
`processingError` stays unset. (`FAILED`/`processingError` is written only
by the `update-database` step's own catch handler.) -/
theorem processFinancialAudio_step1_failure (env : PipelineEnv) (fs1 : FS)
    (temps : List String) (e : String)
    (h : runStep1 env = (fs1, temps, Except.error e)) :
    (processFinancialAudio env).result = Except.error e ∧
    (processFinancialAudio env).db = env.db ∧
    ∀ p, FS.hasFile (processFinancialAudio env).fs p = true →
      FS.hasFile env.fs p = true := by
  have hout : processFinancialAudio env
      = ⟨cleanupTempFiles fs1 temps, env.db, Except.error e⟩ := by
    simp [processFinancialAudio, h]
  rw [hout]
  exact ⟨rfl, rfl, fun p hp => runStep1_error_no_new_files env fs1 temps e h p hp⟩

/-- C2, counterexample: in the concrete run `c2Env` (transcription fails
at Hugging Face and at the Groq fallback) the temp files are indeed
removed, but the job record is NOT set to `FAILED`: it is left untouched in
`PROCESSING` with `processingError` unset. -/
theorem processFinancialAudio_transcription_failure_counterexample :
    (processFinancialAudio c2Env).result.isOk = false ∧
    (processFinancialAudio c2Env).db = some freshJob ∧
    freshJob.status = "PROCESSING" ∧ freshJob.processingError = none ∧
    (processFinancialAudio c2Env).fs = [("call.m4a", ⟨48000, 2⟩)] :=
  ⟨rfl, rfl, rfl, rfl, rfl⟩

/-- C2, witness for `processFinancialAudio_step1_failure`. -/
theorem processFinancialAudio_step1_failure_witness :
    (processFinancialAudio c2Env).result = Except.error "Failed to process audio: groq down" ∧
    (processFinancialAudio c2Env).db = c2Env.db ∧
    FS.hasFile c2Env.fs "call.m4a" = true := by
  have h := processFinancialAudio_step1_failure c2Env [("call.m4a", ⟨48000, 2⟩)] []
    "Failed to process audio: groq down" rfl
  exact ⟨h.1, h.2.1, h.2.2 "call.m4a" (by rfl)⟩

/-- C5 (code bug evidence): in the fully successful concrete run `c5Env`
the cleanup step deletes the denoised file `call_clean.wav` along with the
converted WAV, and the persisted record (whose schema has no
enhanced-audio reference field at all) points at no retained artifact —
contradicting the README's enhanced-audio playback toggle. -/
theorem processFinancialAudio_success_deletes_enhanced_audio :
    (processFinancialAudio c5Env).result = Except.ok "completed" ∧
    (processFinancialAudio c5Env).db = some (JobRec.mk "COMPLETED" (some "hello world")
      (some (Json.str "Positive")) (some (Json.arr [Json.str "Agent"]))
      none none none none none none) ∧
    FS.hasFile (processFinancialAudio c5Env).fs "call_clean.wav" = false ∧
    (processFinancialAudio c5Env).fs = [("call.m4a", ⟨48000, 2⟩)] :=
  ⟨rfl, rfl, rfl, rfl⟩
